import Mathlib

/-!
Verification of the `sp/models.py` core of the django-saml-sp repository.

The Python model layer is shallowly embedded: Django model instances become
Lean structures, the database row that backs an instance is threaded
explicitly as a separate value where persistence matters, Python dictionaries
become association lists with Python `dict` update semantics, datetimes
become integer timestamps (seconds), and external collaborators (Django URL
resolution, the OneLogin SAML toolkit, the cryptography package) become
function parameters.
-/

/-- A Python value stored in a settings dictionary: JSON-style values plus a
datetime (the `metadataValidUntil` entry holds a `datetime` object). -/
inductive JVal where
  | null : JVal
  | bool : Bool → JVal
  | str : String → JVal
  | num : Int → JVal
  | time : Int → JVal
  | arr : List JVal → JVal
  | obj : List (String × JVal) → JVal

/-- A Python dictionary, embedded as an insertion-ordered association list. -/
abbrev Dict (α : Type) : Type := List (String × α)

/-- Python `d[k]` lookup (as an option): first matching key. -/
def dictGet {α : Type} (d : Dict α) (k : String) : Option α :=
  (d.find? (fun p => p.1 = k)).map Prod.snd

/-- Python `d[k] = v`: replace the value at the first occurrence of `k`
in place, otherwise append the new pair at the end. -/
def dictSet {α : Type} : Dict α → String → α → Dict α
  | [], k, v => [(k, v)]
  | p :: d, k, v => if p.1 = k then (k, v) :: d else p :: dictSet d k v

/-- Python `d.update(o)`: set every pair of `o` into `d`, in order. -/
def pyUpdate {α : Type} (d : Dict α) (o : List (String × α)) : Dict α :=
  o.foldl (fun acc p => dictSet acc p.1 p.2) d

theorem dictGet_nil {α : Type} (k : String) : dictGet ([] : Dict α) k = none := rfl

theorem dictGet_cons {α : Type} (p : String × α) (d : Dict α) (k : String) :
    dictGet (p :: d) k = if p.1 = k then some p.2 else dictGet d k := by
  by_cases h : p.1 = k <;> simp [dictGet, List.find?, h]

/-- Lookup after a single Python assignment. -/
theorem dictGet_dictSet {α : Type} (d : Dict α) (k : String) (v : α) (q : String) :
    dictGet (dictSet d k v) q = if q = k then some v else dictGet d q := by
  induction d with
  | nil =>
    by_cases h : q = k
    · subst h
      simp [dictSet, dictGet_cons]
    · have hkq : ¬k = q := fun hh => h (Eq.symm hh)
      simp [dictSet, dictGet_cons, dictGet_nil, h, hkq]
  | cons p d ih =>
    by_cases hp : p.1 = k
    · by_cases hq : q = k
      · subst hq
        simp [dictSet, hp, dictGet_cons]
      · have hkq : ¬k = q := fun hh => hq (Eq.symm hh)
        simp [dictSet, hp, dictGet_cons, hq, hkq]
    · by_cases hq : q = k
      · subst hq
        have hpq : p.1 ≠ q := hp
        simp [dictSet, hp, dictGet_cons, hpq, ih]
      · simp [dictSet, hp, dictGet_cons, ih, hq]

theorem pyUpdate_nil {α : Type} (d : Dict α) : pyUpdate d [] = d := rfl

theorem pyUpdate_cons {α : Type} (d : Dict α) (p : String × α) (o : List (String × α)) :
    pyUpdate d (p :: o) = pyUpdate (dictSet d p.1 p.2) o := rfl

/-- Lookup after a Python `dict.update`: the last occurrence of the key in the
update list wins, falling back to the original dictionary. -/
theorem dictGet_pyUpdate {α : Type} (o : List (String × α)) (d : Dict α) (k : String) :
    dictGet (pyUpdate d o) k =
      ((o.reverse.find? (fun p => p.1 = k)).map Prod.snd).or (dictGet d k) := by
  induction o generalizing d with
  | nil => simp [pyUpdate_nil]
  | cons p o ih =>
    rw [pyUpdate_cons, ih, dictGet_dictSet]
    rw [List.reverse_cons, List.find?_append, Option.map_or', Option.or_assoc]
    congr 1
    by_cases h : p.1 = k
    · rw [if_pos h.symm, List.find?_singleton]
      simp [h]
    · rw [if_neg (fun hh => h (Eq.symm hh)), List.find?_singleton]
      simp [h]

/-- One row of the IdPAttribute model: maps one SAML attribute name to a
local field name, with the NameID-source and always-update flags. The
owning-IdP foreign key is implicit: a list of these is held per IdP. -/
structure IdPAttribute where
  saml_attribute : String
  mapped_name : String
  is_nameid : Bool
  always_update : Bool
deriving DecidableEq

/-- The parsed-assertion capability of the SAML protocol library:
get_attribute returns the value list of a named attribute or none, and
get_nameid is the library-computed NameID of the assertion. -/
structure Saml where
  get_attribute : String → Option (List String)
  get_nameid : String

/-- Host-application global settings consulted by the redirect helpers
(Django settings.LOGIN_REDIRECT_URL and settings.LOGOUT_REDIRECT_URL). -/
structure HostSettings where
  login_redirect_url : String
  logout_redirect_url : String

/-- The Django URL-resolution capability: reverse(name, kwargs) returns the
resolved path, or none where Django raises NoReverseMatch. -/
abbrev UrlResolver : Type := String → List (String × String) → Option String

/-- The IdP model row. Datetimes are integer timestamps (seconds); nullable
datetime columns are options. The saml_settings TextField holds JSON text in
the source; it is embedded here in its JSON-parsed form, since every access
in the source goes through json.loads/json.dumps. The attributes related
manager is embedded as the list of dependent IdPAttribute rows in queryset
iteration order. Columns not read by any embedded method (strategy method
names, username prefixing, session flags) are omitted. -/
structure IdP where
  name : String
  url_params : List (String × String)
  base_url : String
  entity_id : String
  contact_name : String
  contact_email : String
  x509_certificate : String
  private_key : String
  certificate_expires : Option Int
  metadata_url : String
  verify_metadata_cert : Bool
  metadata_xml : String
  saml_settings : Dict JVal
  last_import : Option Int
  auth_case_sensitive : Bool
  login_redirect : String
  logout_redirect : String
  require_attributes : Bool
  authn_comparison : String
  authn_context : JVal
  attributes : List IdPAttribute

/-- IdP.get_url: reverse the named URL with this IdP's url_params, falling
back to the given default where resolution fails. -/
def IdP.get_url (idp : IdP) (resolve : UrlResolver) (name default : String) : String :=
  match resolve name idp.url_params with
  | some path => path
  | none => default

def IdP.get_acs (idp : IdP) (resolve : UrlResolver) : String :=
  idp.base_url ++ idp.get_url resolve "sp-idp-acs" "/"

def IdP.get_slo (idp : IdP) (resolve : UrlResolver) : String :=
  idp.base_url ++ idp.get_url resolve "sp-idp-slo" "/"

def IdP.get_absolute_url (idp : IdP) (resolve : UrlResolver) : String :=
  idp.get_url resolve "sp-idp-metadata" "/"

def IdP.get_login_url (idp : IdP) (resolve : UrlResolver) : String :=
  idp.get_url resolve "sp-idp-login" "/"

def IdP.get_test_url (idp : IdP) (resolve : UrlResolver) : String :=
  idp.get_url resolve "sp-idp-test" "/"

def IdP.get_verify_url (idp : IdP) (resolve : UrlResolver) : String :=
  idp.get_url resolve "sp-idp-verify" "/"

def IdP.get_logout_url (idp : IdP) (resolve : UrlResolver) : String :=
  idp.get_url resolve "sp-idp-logout" "/"

/-- IdP.get_entity_id: the explicit entity_id when truthy (non-empty),
otherwise base_url + get_absolute_url(). -/
def IdP.get_entity_id (idp : IdP) (resolve : UrlResolver) : String :=
  if idp.entity_id ≠ "" then idp.entity_id
  else idp.base_url ++ idp.get_absolute_url resolve

/-- Embedding of the datetime-or-None value of certificate_expires as stored
under the metadataValidUntil settings key. -/
def jvalOfExpires : Option Int → JVal
  | none => JVal.null
  | some t => JVal.time t

/-- The value of the sp key of the sp_settings overlay literal. -/
def IdP.spObj (idp : IdP) (resolve : UrlResolver) : Dict JVal :=
  [ ("NameIDFormat", JVal.str "urn:oasis:names:tc:SAML:1.1:nameid-format:unspecified"),
    ("entityId", JVal.str (idp.get_entity_id resolve)),
    ("assertionConsumerService", JVal.obj
      [ ("url", JVal.str (idp.get_acs resolve)),
        ("binding", JVal.str "urn:oasis:names:tc:SAML:2.0:bindings:HTTP-POST") ]),
    ("singleLogoutService", JVal.obj
      [ ("url", JVal.str (idp.get_slo resolve)),
        ("binding", JVal.str "urn:oasis:names:tc:SAML:2.0:bindings:HTTP-Redirect") ]),
    ("x509cert", JVal.str idp.x509_certificate),
    ("privateKey", JVal.str idp.private_key) ]

/-- The value of the security key of the sp_settings overlay literal. -/
def IdP.securityObj (idp : IdP) : Dict JVal :=
  [ ("wantAttributeStatement", JVal.bool idp.require_attributes),
    ("metadataValidUntil", jvalOfExpires idp.certificate_expires),
    ("requestedAuthnContextComparison", JVal.str idp.authn_comparison),
    ("requestedAuthnContext", idp.authn_context) ]

/-- The value of the contactPerson key of the sp_settings overlay literal. -/
def IdP.contactObj (idp : IdP) : Dict JVal :=
  [ ("technical", JVal.obj
      [ ("givenName", JVal.str idp.contact_name),
        ("emailAddress", JVal.str idp.contact_email) ]) ]

/-- IdP.sp_settings: the SP-side overlay dictionary, built exactly as the
sp_settings property literal in the source (the sub-objects are factored out
above so theorems can name them). -/
def IdP.sp_settings (idp : IdP) (resolve : UrlResolver) : Dict JVal :=
  [ ("strict", JVal.bool true),
    ("sp", JVal.obj (idp.spObj resolve)),
    ("security", JVal.obj idp.securityObj),
    ("contactPerson", JVal.obj idp.contactObj) ]

/-- IdP.settings: json.loads the stored blob (already parsed in this
embedding) and dict.update it with the sp_settings overlay. -/
def IdP.settings (idp : IdP) (resolve : UrlResolver) : Dict JVal :=
  pyUpdate idp.saml_settings (idp.sp_settings resolve)

/-- IdP.mapped_attributes: over the attribute mappings whose mapped_name is
not empty (the exclude clause), in queryset order, look the SAML attribute up
in the assertion and assign into an initially-empty OrderedDict when the
value is not None. -/
def IdP.mapped_attributes (idp : IdP) (saml : Saml) : Dict (List String) :=
  (idp.attributes.filter (fun a => a.mapped_name != "")).foldl
    (fun attrs attr =>
      match saml.get_attribute attr.saml_attribute with
      | some value => dictSet attrs attr.mapped_name value
      | none => attrs) []

/-- Failure of IdP.get_nameid when a NameID-source mapping is flagged:
subscripting the attribute lookup fails with a TypeError when the attribute
is absent (None), and with an IndexError when its value list is empty. -/
inductive NameIdError where
  | missingNameIdAttribute : NameIdError
  | emptyNameIdAttribute : NameIdError
deriving DecidableEq

/-- IdP.get_nameid: the first attribute mapping flagged is_nameid selects the
NameID source attribute, whose first value is returned (subscript failure
when absent or empty); with no flagged mapping the library NameID is
returned unchanged. -/
def IdP.get_nameid (idp : IdP) (saml : Saml) : Except NameIdError String :=
  match idp.attributes.find? (fun a => a.is_nameid) with
  | some nameid_attr =>
    match saml.get_attribute nameid_attr.saml_attribute with
    | some (v :: _) => Except.ok v
    | some [] => Except.error NameIdError.emptyNameIdAttribute
    | none => Except.error NameIdError.missingNameIdAttribute
  | none => Except.ok saml.get_nameid

/-- Python `a or b` on strings and None-defaulted strings: the left operand
unless it is falsy (empty). -/
def pyOrS (a b : String) : String := if a = "" then b else a

/-- IdP.get_login_redirect: redir or self.login_redirect or
settings.LOGIN_REDIRECT_URL. A caller-omitted redirect is none (Python
None), which is falsy like the empty string. -/
def IdP.get_login_redirect (idp : IdP) (host : HostSettings) (redir : Option String) : String :=
  pyOrS (redir.getD "") (pyOrS idp.login_redirect host.login_redirect_url)

/-- IdP.get_logout_redirect: redir or self.logout_redirect or
settings.LOGOUT_REDIRECT_URL. -/
def IdP.get_logout_redirect (idp : IdP) (host : HostSettings) (redir : Option String) : String :=
  pyOrS (redir.getD "") (pyOrS idp.logout_redirect host.logout_redirect_url)

/-- Failure raised by the cryptography package during certificate
generation (key generation or signing). -/
inductive CertError where
  | keyGenerationError : CertError
  | signingError : CertError
deriving DecidableEq

/-- An opaque handle for a generated RSA private key; the key material
itself lives in the external cryptography package. -/
structure RsaKey where
  handle : Nat
deriving DecidableEq

/-- The arguments the source passes to the x509.CertificateBuilder before
signing: subject and issuer name (Common Name = netloc of base_url), the
validity window, and the CA basic constraints. -/
structure SignReq where
  subjectCN : String
  issuerCN : String
  notBefore : Int
  notAfter : Int
  ca : Bool
  pathLen : Nat
deriving DecidableEq

/-- The number of seconds in datetime.timedelta(days=3650). -/
def tenYears : Int := 3650 * 86400

/-- The CertificateBuilder request generate_certificate constructs at time
now for this IdP. -/
def IdP.certSignReq (idp : IdP) (netloc : String → String) (now : Int) : SignReq :=
  { subjectCN := netloc idp.base_url
    issuerCN := netloc idp.base_url
    notBefore := now
    notAfter := now + tenYears
    ca := true
    pathLen := 0 }

/-- IdP.generate_certificate. The database row backing the instance is db;
the in-memory instance is mem; now is timezone.now(). External
collaborators: netloc (urlparse(...).netloc), genKey
(rsa.generate_private_key, which may fail), privPem (the PKCS8 PEM
serialization of a key), and sign (CertificateBuilder.sign + PEM encoding,
which may fail). Returns (database row, in-memory instance, raised error):
field assignments mutate only mem, and self.save() — the only write to db —
runs last, after the certificate is fully built. -/
def IdP.generate_certificate (db mem : IdP) (now : Int)
    (netloc : String → String)
    (genKey : Except CertError RsaKey)
    (privPem : RsaKey → String)
    (sign : RsaKey → SignReq → Except CertError String) :
    IdP × IdP × Option CertError :=
  match genKey with
  | Except.error e => (db, mem, some e)
  | Except.ok key =>
    let mem1 : IdP := { mem with private_key := privPem key }
    let mem2 : IdP := { mem1 with certificate_expires := some (now + tenYears) }
    match sign key (mem.certSignReq netloc now) with
    | Except.error e => (db, mem2, some e)
    | Except.ok certPem =>
      let mem3 : IdP := { mem2 with x509_certificate := certPem }
      (mem3, mem3, none)

/-- Failures of metadata import: fetching the metadata URL
(MetadataFetchError) or parsing the metadata XML (MetadataParseError). -/
inductive MetadataError where
  | fetchError : MetadataError
  | parseError : MetadataError
deriving DecidableEq

/-- The parse-and-store tail of IdP.import_metadata: parse the in-memory
metadata_xml into settings, stamp last_import, and save. -/
def importParse (db mem : IdP) (now : Int)
    (parse : String → Except MetadataError (Dict JVal)) :
    IdP × IdP × Option MetadataError :=
  match parse mem.metadata_xml with
  | Except.error e => (db, mem, some e)
  | Except.ok parsed =>
    let mem1 : IdP := { mem with saml_settings := parsed, last_import := some now }
    (mem1, mem1, none)

/-- IdP.import_metadata. The database row is db, the in-memory instance is
mem. External collaborators: get_metadata (the OneLogin metadata fetch,
taking the URL and the validate_cert flag) and parse (the OneLogin metadata
XML parser, composed with json round-tripping). The fetch runs only when a
metadata URL is configured (truthy); self.save() runs last. -/
def IdP.import_metadata (db mem : IdP) (now : Int)
    (get_metadata : String → Bool → Except MetadataError String)
    (parse : String → Except MetadataError (Dict JVal)) :
    IdP × IdP × Option MetadataError :=
  if mem.metadata_url ≠ "" then
    match get_metadata mem.metadata_url mem.verify_metadata_cert with
    | Except.error e => (db, mem, some e)
    | Except.ok xml => importParse db { mem with metadata_xml := xml } now parse
  else importParse db mem now parse

/-- Creating an IdPAttribute row for one IdP: the database enforces the
unique_together constraint on (idp, saml_attribute), so the insert fails
(none) when the SAML attribute name is already mapped, and otherwise appends
the row. No constraint involves is_nameid. -/
def addAttribute (attrs : List IdPAttribute) (a : IdPAttribute) : Option (List IdPAttribute) :=
  if attrs.any (fun b => b.saml_attribute == a.saml_attribute) then none
  else some (attrs ++ [a])

/-- Editing the IdPAttribute row at index i: the save succeeds only when the
new SAML attribute name does not collide with any other row of the same IdP
(the unique_together constraint on (idp, saml_attribute)). -/
def editAttribute (attrs : List IdPAttribute) (i : Nat) (a : IdPAttribute) :
    Option (List IdPAttribute) :=
  if i < attrs.length then
    if (attrs.eraseIdx i).any (fun b => b.saml_attribute == a.saml_attribute) then none
    else some (attrs.set i a)
  else none

/-- The attribute-mapping states of one IdP reachable through the
operations that create or edit attribute mappings, starting from none. -/
inductive ReachableAttrs : List IdPAttribute → Prop where
  | empty : ReachableAttrs []
  | add {s t : List IdPAttribute} {a : IdPAttribute} :
      ReachableAttrs s → addAttribute s a = some t → ReachableAttrs t
  | edit {s t : List IdPAttribute} {i : Nat} {a : IdPAttribute} :
      ReachableAttrs s → editAttribute s i a = some t → ReachableAttrs t

/-- The number of attribute mappings flagged as the NameID source. -/
def nameidCount (attrs : List IdPAttribute) : Nat :=
  (attrs.filter (fun a => a.is_nameid)).length

/-- Master lookup lemma for the built settings: the four overlay keys are
replaced wholesale, every other key falls through to the imported blob. -/
theorem dictGet_settings (idp : IdP) (resolve : UrlResolver) (k : String) :
    dictGet (idp.settings resolve) k =
      if k = "contactPerson" then some (JVal.obj idp.contactObj) else
      if k = "security" then some (JVal.obj idp.securityObj) else
      if k = "sp" then some (JVal.obj (idp.spObj resolve)) else
      if k = "strict" then some (JVal.bool true) else
      dictGet idp.saml_settings k := by
  show dictGet
      (dictSet (dictSet (dictSet (dictSet idp.saml_settings "strict" (JVal.bool true))
        "sp" (JVal.obj (idp.spObj resolve)))
        "security" (JVal.obj idp.securityObj))
        "contactPerson" (JVal.obj idp.contactObj)) k = _
  rw [dictGet_dictSet, dictGet_dictSet, dictGet_dictSet, dictGet_dictSet]

/-- Variant of dictGet_cons with the comparison flipped, convenient for
case analysis on the lookup key. -/
theorem dictGet_cons_swap {a : Type} (p : String × a) (d : Dict a) (k : String) :
    dictGet (p :: d) k = if k = p.1 then some p.2 else dictGet d k := by
  rw [dictGet_cons]
  by_cases h : p.1 = k
  · rw [if_pos h, if_pos h.symm]
  · rw [if_neg h, if_neg (fun hh => h hh.symm)]

/-- Lookup in the sp_settings overlay literal by cases on the key. -/
theorem dictGet_sp_settings (idp : IdP) (resolve : UrlResolver) (k : String) :
    dictGet (idp.sp_settings resolve) k =
      if k = "contactPerson" then some (JVal.obj idp.contactObj) else
      if k = "security" then some (JVal.obj idp.securityObj) else
      if k = "sp" then some (JVal.obj (idp.spObj resolve)) else
      if k = "strict" then some (JVal.bool true) else none := by
  by_cases h1 : k = "contactPerson" <;> by_cases h2 : k = "security" <;>
    by_cases h3 : k = "sp" <;> by_cases h4 : k = "strict" <;>
    simp_all [IdP.sp_settings, dictGet_cons_swap, dictGet_nil]

/-- C1: for every IdP and every stored imported settings blob, the built
settings map the key path sp.x509cert to the IdP's stored certificate,
whatever conflicting value the imported blob carries there; more generally,
every key the sp_settings overlay sets keeps its overlay value in the built
settings. -/
theorem overlay_always_wins (idp : IdP) (resolve : UrlResolver) :
    (∃ spd : Dict JVal, dictGet (idp.settings resolve) "sp" = some (JVal.obj spd) ∧
      dictGet spd "x509cert" = some (JVal.str idp.x509_certificate)) ∧
    (∀ k v, dictGet (idp.sp_settings resolve) k = some v →
      dictGet (idp.settings resolve) k = some v) := by
  constructor
  · refine ⟨idp.spObj resolve, ?_, ?_⟩
    · rw [dictGet_settings]
      simp
    · simp [IdP.spObj, dictGet_cons]
  · intro k v hv
    rw [dictGet_sp_settings] at hv
    rw [dictGet_settings]
    split_ifs at hv ⊢ <;> simp_all

/-- A concrete imported settings blob carrying a bogus SP certificate, an
extra sub-key under sp, and an idp top-level section. -/
def wBlob : Dict JVal :=
  [ ("sp", JVal.obj [("x509cert", JVal.str "BOGUS"), ("extra", JVal.str "keepme")]),
    ("idp", JVal.obj [("entityId", JVal.str "https://idp.example.com/meta")]) ]

/-- A concrete IdP row used to instantiate theorems with hypotheses. -/
def wIdp : IdP :=
  { name := "Example"
    url_params := []
    base_url := "https://sp.example.com"
    entity_id := ""
    contact_name := "Admin"
    contact_email := "admin@example.com"
    x509_certificate := "REALCERT"
    private_key := "REALKEY"
    certificate_expires := some 1700000000
    metadata_url := ""
    verify_metadata_cert := true
    metadata_xml := "<EntityDescriptor/>"
    saml_settings := wBlob
    last_import := none
    auth_case_sensitive := true
    login_redirect := ""
    logout_redirect := ""
    require_attributes := true
    authn_comparison := "exact"
    authn_context := JVal.arr
      [JVal.str "urn:oasis:names:tc:SAML:2.0:ac:classes:PasswordProtectedTransport"]
    attributes := [] }

/-- A concrete URL resolver that knows no routes. -/
def wResolve : UrlResolver := fun _ _ => none

/-- Witness for C1 at a blob whose sp.x509cert is BOGUS: the built settings
still carry the stored certificate, and the overlay key strict keeps its
overlay value. -/
theorem overlay_always_wins_witness :
    (∃ spd : Dict JVal, dictGet (wIdp.settings wResolve) "sp" = some (JVal.obj spd) ∧
      dictGet spd "x509cert" = some (JVal.str "REALCERT")) ∧
    dictGet (wIdp.settings wResolve) "strict" = some (JVal.bool true) :=
  ⟨(overlay_always_wins wIdp wResolve).1,
   (overlay_always_wins wIdp wResolve).2 "strict" (JVal.bool true) rfl⟩

/-- C10: the merge performed by the settings property is a top-level key
replacement, not a deep merge: each of the overlay's top-level keys maps in
the result to the overlay's value in its entirety, while top-level keys
outside the overlay fall through to the imported blob unchanged. -/
theorem settings_merge_is_shallow (idp : IdP) (resolve : UrlResolver) (k : String) :
    (k ∈ ["strict", "sp", "security", "contactPerson"] →
      dictGet (idp.settings resolve) k = dictGet (idp.sp_settings resolve) k) ∧
    (k ∉ ["strict", "sp", "security", "contactPerson"] →
      dictGet (idp.settings resolve) k = dictGet idp.saml_settings k) := by
  constructor
  · intro hk
    rw [dictGet_settings, dictGet_sp_settings]
    fin_cases hk <;> simp
  · intro hk
    simp only [List.mem_cons, List.not_mem_nil, or_false, not_or] at hk
    obtain ⟨n1, n2, n3, n4⟩ := hk
    rw [dictGet_settings, if_neg n4, if_neg n3, if_neg n2, if_neg n1]

/-- Witness for C10: at the concrete blob, the built settings replace sp
wholesale (the extra sub-key is discarded with it) and pass the idp section
through unchanged. -/
theorem settings_merge_is_shallow_witness :
    dictGet (wIdp.settings wResolve) "sp" = dictGet (wIdp.sp_settings wResolve) "sp" ∧
    dictGet (wIdp.settings wResolve) "idp" = dictGet wIdp.saml_settings "idp" :=
  ⟨(settings_merge_is_shallow wIdp wResolve "sp").1 (by simp),
   (settings_merge_is_shallow wIdp wResolve "idp").2 (by simp)⟩

/-- Appending a non-empty string yields a non-empty string. -/
theorem append_ne_empty (a s : String) (h : s ≠ "") : a ++ s ≠ "" := by
  intro hh
  apply h
  apply String.ext
  have hd := congrArg String.data hh
  rw [String.data_append] at hd
  exact (List.append_eq_nil.mp hd).2

/-- C6: get_entity_id returns the configured entity_id when it is set
(non-blank), otherwise base_url concatenated with the resolved metadata
endpoint path; given that the routing capability resolves only to non-empty
(absolute) paths, the result is never empty. -/
theorem entity_id_explicit_or_derived (idp : IdP) (resolve : UrlResolver)
    (habs : ∀ n p s, resolve n p = some s → s ≠ "") :
    (idp.entity_id ≠ "" → idp.get_entity_id resolve = idp.entity_id) ∧
    (idp.entity_id = "" →
      idp.get_entity_id resolve = idp.base_url ++ idp.get_absolute_url resolve) ∧
    idp.get_entity_id resolve ≠ "" := by
  refine ⟨?_, ?_, ?_⟩
  · intro h
    simp [IdP.get_entity_id, h]
  · intro h
    simp [IdP.get_entity_id, h]
  · by_cases h : idp.entity_id = ""
    · rw [IdP.get_entity_id, if_neg (by simp [h])]
      apply append_ne_empty
      rw [IdP.get_absolute_url, IdP.get_url]
      cases hr : resolve "sp-idp-metadata" idp.url_params with
      | none => simp
      | some s => exact habs _ _ _ hr
    · simp [IdP.get_entity_id, h]

/-- Witness for C6 at an IdP with a blank entity_id and a resolver with no
routes: the entity ID is derived and non-empty. -/
theorem entity_id_explicit_or_derived_witness :
    wIdp.get_entity_id wResolve = wIdp.base_url ++ wIdp.get_absolute_url wResolve ∧
    wIdp.get_entity_id wResolve ≠ "" :=
  ⟨(entity_id_explicit_or_derived wIdp wResolve (fun _ _ _ hh => nomatch hh)).2.1 rfl,
   (entity_id_explicit_or_derived wIdp wResolve (fun _ _ _ hh => nomatch hh)).2.2⟩

/-- C9: for each named endpoint, URL resolution with the IdP's per-IdP path
parameters returns the resolved path when resolution succeeds, and falls
back to "/" rather than raising when it fails. -/
theorem endpoint_url_soft_fail (idp : IdP) (resolve : UrlResolver) (name : String)
    (_hname : name ∈ ["sp-idp-acs", "sp-idp-slo", "sp-idp-metadata", "sp-idp-login",
      "sp-idp-logout", "sp-idp-test", "sp-idp-verify"]) :
    (∀ p, resolve name idp.url_params = some p → idp.get_url resolve name "/" = p) ∧
    (resolve name idp.url_params = none → idp.get_url resolve name "/" = "/") := by
  constructor
  · intro p h
    simp [IdP.get_url, h]
  · intro h
    simp [IdP.get_url, h]

/-- A concrete URL resolver that resolves every route to /acs/. -/
def wResolveSome : UrlResolver := fun _ _ => some "/acs/"

/-- Witness for C9 at the ACS endpoint name: a successful resolution is
returned, a failed one falls back to the root path. -/
theorem endpoint_url_soft_fail_witness :
    wIdp.get_url wResolveSome "sp-idp-acs" "/" = "/acs/" ∧
    wIdp.get_url wResolve "sp-idp-acs" "/" = "/" :=
  ⟨(endpoint_url_soft_fail wIdp wResolveSome "sp-idp-acs" (by simp)).1 "/acs/" rfl,
   (endpoint_url_soft_fail wIdp wResolve "sp-idp-acs" (by simp)).2 rfl⟩

/-- C8: the post-login and post-logout redirect targets resolve in the
precedence order caller-supplied redirect, else IdP-configured redirect,
else host-application global default, for every combination of populated
and unpopulated values. -/
theorem redirect_precedence (idp : IdP) (host : HostSettings) (redir : Option String) :
    idp.get_login_redirect host redir =
      (if redir.getD "" ≠ "" then redir.getD ""
       else if idp.login_redirect ≠ "" then idp.login_redirect
       else host.login_redirect_url) ∧
    idp.get_logout_redirect host redir =
      (if redir.getD "" ≠ "" then redir.getD ""
       else if idp.logout_redirect ≠ "" then idp.logout_redirect
       else host.logout_redirect_url) := by
  constructor
  · by_cases h1 : redir.getD "" = ""
    · by_cases h2 : idp.login_redirect = "" <;>
        simp [IdP.get_login_redirect, pyOrS, h1, h2]
    · simp [IdP.get_login_redirect, pyOrS, h1]
  · by_cases h1 : redir.getD "" = ""
    · by_cases h2 : idp.logout_redirect = "" <;>
        simp [IdP.get_logout_redirect, pyOrS, h1, h2]
    · simp [IdP.get_logout_redirect, pyOrS, h1]

/-- When a flagged mapping m is the unique NameID source in the list, the
filter(is_nameid=True).first() queryset call returns m. -/
theorem find?_nameid_of_unique (attrs : List IdPAttribute) (m : IdPAttribute)
    (hm : m ∈ attrs) (hnid : m.is_nameid = true)
    (huniq : ∀ a ∈ attrs, a.is_nameid = true → a = m) :
    attrs.find? (fun a => a.is_nameid) = some m := by
  induction attrs with
  | nil => cases hm
  | cons b rest ih =>
    by_cases hb : b.is_nameid = true
    · have hbm : b = m := huniq b (List.mem_cons_self _ _) hb
      rw [List.find?_cons_of_pos _ (by simp [hb]), hbm]
    · rw [List.find?_cons_of_neg _ (by simp [hb])]
      apply ih
      · rcases List.mem_cons.mp hm with h | h
        · exact absurd (h ▸ hnid) hb
        · exact h
      · intro a ha hna
        exact huniq a (List.mem_cons_of_mem _ ha) hna

/-- C2: with one mapping flagged is_nameid on the attribute "email" and an
assertion carrying that attribute as ["a@x.com"], get_nameid returns
a@x.com; with no flagged mapping it returns the library-computed NameID
unchanged; with the flagged attribute absent from the assertion it errors
(the source subscripts None, embedded as missingNameIdAttribute). -/
theorem nameid_resolution (idp : IdP) (saml : Saml) :
    (∀ m, m ∈ idp.attributes → m.is_nameid = true →
      (∀ a ∈ idp.attributes, a.is_nameid = true → a = m) →
      (m.saml_attribute = "email" → saml.get_attribute "email" = some ["a@x.com"] →
        idp.get_nameid saml = Except.ok "a@x.com") ∧
      (saml.get_attribute m.saml_attribute = none →
        idp.get_nameid saml = Except.error NameIdError.missingNameIdAttribute)) ∧
    ((∀ a ∈ idp.attributes, a.is_nameid = false) →
      idp.get_nameid saml = Except.ok saml.get_nameid) := by
  constructor
  · intro m hm hnid huniq
    have hf := find?_nameid_of_unique idp.attributes m hm hnid huniq
    constructor
    · intro hemail hval
      simp [IdP.get_nameid, hf, hemail, hval]
    · intro habs
      simp [IdP.get_nameid, hf, habs]
  · intro hnone
    have hf : idp.attributes.find? (fun a => a.is_nameid) = none := by
      rw [List.find?_eq_none]
      intro a ha
      simp [hnone a ha]
    simp [IdP.get_nameid, hf]

/-- The attribute mapping flagged as NameID source in the witnesses. -/
def wAttrEmail : IdPAttribute :=
  { saml_attribute := "email", mapped_name := "email",
    is_nameid := true, always_update := false }

/-- The witness IdP with a single flagged NameID-source mapping. -/
def wIdpNameid : IdP := { wIdp with attributes := [wAttrEmail] }

/-- A witness assertion carrying the email attribute. -/
def wSamlEmail : Saml :=
  { get_attribute := fun n => if n = "email" then some ["a@x.com"] else none,
    get_nameid := "lib-nameid" }

/-- A witness assertion carrying no attributes at all. -/
def wSamlNone : Saml :=
  { get_attribute := fun _ => none, get_nameid := "lib-nameid" }

/-- Witness for C2: all three branches at concrete inputs. -/
theorem nameid_resolution_witness :
    wIdpNameid.get_nameid wSamlEmail = Except.ok "a@x.com" ∧
    wIdp.get_nameid wSamlEmail = Except.ok "lib-nameid" ∧
    wIdpNameid.get_nameid wSamlNone = Except.error NameIdError.missingNameIdAttribute :=
  ⟨((nameid_resolution wIdpNameid wSamlEmail).1 wAttrEmail (by simp [wIdpNameid]) rfl
      (by intro a ha hx; simpa [wIdpNameid] using ha)).1 rfl rfl,
   (nameid_resolution wIdp wSamlEmail).2 (by intro a ha; simp [wIdp] at ha),
   ((nameid_resolution wIdpNameid wSamlNone).1 wAttrEmail (by simp [wIdpNameid]) rfl
      (by intro a ha hx; simpa [wIdpNameid] using ha)).2 rfl⟩

/-- The (mapped_name, value) assignments mapped_attributes performs, in
order: one per non-empty-named mapping whose SAML attribute is present in
the assertion. -/
def contribs (attrs : List IdPAttribute) (saml : Saml) : List (String × List String) :=
  (attrs.filter (fun a => a.mapped_name != "")).filterMap
    (fun a => (saml.get_attribute a.saml_attribute).map (fun v => (a.mapped_name, v)))

/-- The skip-on-absent fold of mapped_attributes is the Python dict update
by the performed assignments. -/
theorem fold_assign_eq_pyUpdate (saml : Saml) (l : List IdPAttribute)
    (d : Dict (List String)) :
    l.foldl (fun attrs attr =>
        match saml.get_attribute attr.saml_attribute with
        | some value => dictSet attrs attr.mapped_name value
        | none => attrs) d
      = pyUpdate d (l.filterMap
          (fun a => (saml.get_attribute a.saml_attribute).map
            (fun v => (a.mapped_name, v)))) := by
  induction l generalizing d with
  | nil => rfl
  | cons a l ih =>
    cases hv : saml.get_attribute a.saml_attribute with
    | none => simp [List.filterMap_cons, hv, ih]
    | some v => simp [List.filterMap_cons, hv, ih, pyUpdate_cons]

theorem mapped_attributes_eq_pyUpdate (idp : IdP) (saml : Saml) :
    idp.mapped_attributes saml = pyUpdate [] (contribs idp.attributes saml) :=
  fold_assign_eq_pyUpdate saml (idp.attributes.filter (fun a => a.mapped_name != "")) []

theorem contribs_append (l1 l2 : List IdPAttribute) (saml : Saml) :
    contribs (l1 ++ l2) saml = contribs l1 saml ++ contribs l2 saml := by
  simp [contribs, List.filter_append, List.filterMap_append]

theorem contribs_single_empty {a : IdPAttribute} (saml : Saml) (h : a.mapped_name = "") :
    contribs [a] saml = [] := by
  simp [contribs, h]

theorem contribs_single_absent {a : IdPAttribute} {saml : Saml}
    (h : saml.get_attribute a.saml_attribute = none) :
    contribs [a] saml = [] := by
  by_cases hm : a.mapped_name = ""
  · simp [contribs, hm]
  · simp [contribs, hm, h]

theorem contribs_single_present {m : IdPAttribute} {saml : Saml} {v : List String}
    (hname : m.mapped_name ≠ "") (hval : saml.get_attribute m.saml_attribute = some v) :
    contribs [m] saml = [(m.mapped_name, v)] := by
  simp [contribs, hname, hval]

/-- Every performed assignment comes from a mapping whose SAML attribute is
present with exactly that value. -/
theorem contribs_mem {attrs : List IdPAttribute} {saml : Saml}
    {q : String × List String} (hq : q ∈ contribs attrs saml) :
    ∃ b ∈ attrs, b.mapped_name = q.1 ∧ saml.get_attribute b.saml_attribute = some q.2 := by
  rw [contribs, List.mem_filterMap] at hq
  obtain ⟨b, hb, hfb⟩ := hq
  have hb2 := List.mem_of_mem_filter hb
  cases hv : saml.get_attribute b.saml_attribute with
  | none =>
    rw [hv] at hfb
    cases hfb
  | some v =>
    rw [hv] at hfb
    simp only [Option.map_some'] at hfb
    have hq2 : (b.mapped_name, v) = q := Option.some.inj hfb
    exact ⟨b, hb2, by rw [← hq2], by rw [hv, ← hq2]⟩

/-- Dropping a mapping that contributes nothing leaves the result unchanged. -/
theorem contribs_middle_erased {pre post : List IdPAttribute} {a : IdPAttribute}
    {saml : Saml} (h : contribs [a] saml = []) :
    contribs (pre ++ a :: post) saml = contribs (pre ++ post) saml := by
  rw [List.append_cons, contribs_append, contribs_append, h, contribs_append]
  simp

/-- C7: mapped_attributes excludes every mapping whose mapped field name is
empty, lets the later-ordered of two mappings to the same field name
overwrite the earlier one, and skips mappings whose SAML attribute is
absent from the assertion, without error. -/
theorem mapped_attributes_spec :
    (∀ (idp : IdP) (saml : Saml) (pre post : List IdPAttribute) (a : IdPAttribute),
      a.mapped_name = "" →
      IdP.mapped_attributes { idp with attributes := pre ++ a :: post } saml =
        IdP.mapped_attributes { idp with attributes := pre ++ post } saml) ∧
    (∀ (idp : IdP) (saml : Saml) (l1 l2 : List IdPAttribute) (m : IdPAttribute)
      (v : List String),
      idp.attributes = l1 ++ m :: l2 →
      m.mapped_name ≠ "" →
      saml.get_attribute m.saml_attribute = some v →
      (∀ b ∈ l2, b.mapped_name = m.mapped_name →
        saml.get_attribute b.saml_attribute = none) →
      dictGet (idp.mapped_attributes saml) m.mapped_name = some v) ∧
    (∀ (idp : IdP) (saml : Saml) (pre post : List IdPAttribute) (a : IdPAttribute),
      saml.get_attribute a.saml_attribute = none →
      IdP.mapped_attributes { idp with attributes := pre ++ a :: post } saml =
        IdP.mapped_attributes { idp with attributes := pre ++ post } saml) := by
  refine ⟨?_, ?_, ?_⟩
  · intro idp saml pre post a ha
    rw [mapped_attributes_eq_pyUpdate, mapped_attributes_eq_pyUpdate]
    show pyUpdate [] (contribs (pre ++ a :: post) saml)
      = pyUpdate [] (contribs (pre ++ post) saml)
    rw [contribs_middle_erased (contribs_single_empty saml ha)]
  · intro idp saml l1 l2 m v hattrs hname hval hlater
    rw [mapped_attributes_eq_pyUpdate, hattrs, dictGet_pyUpdate]
    rw [List.append_cons, contribs_append, contribs_append,
      contribs_single_present hname hval]
    have hnone : ((contribs l2 saml).reverse.find?
        (fun p => p.1 = m.mapped_name)) = none := by
      rw [List.find?_eq_none]
      intro q hq hq1
      obtain ⟨b, hb, hbn, hbv⟩ := contribs_mem (List.mem_reverse.mp hq)
      have hq1' : q.1 = m.mapped_name := by simpa using hq1
      have := hlater b hb (by rw [hbn, hq1'])
      rw [this] at hbv
      cases hbv
    rw [List.reverse_append, List.reverse_append, List.find?_append, List.find?_append,
      hnone]
    simp [dictGet_nil, Option.or_none, List.find?_cons_of_pos]
  · intro idp saml pre post a ha
    rw [mapped_attributes_eq_pyUpdate, mapped_attributes_eq_pyUpdate]
    show pyUpdate [] (contribs (pre ++ a :: post) saml)
      = pyUpdate [] (contribs (pre ++ post) saml)
    rw [contribs_middle_erased (contribs_single_absent ha)]

/-- An observability-only mapping (empty mapped field name). -/
def wAttrObs : IdPAttribute :=
  { saml_attribute := "upn", mapped_name := "", is_nameid := false, always_update := false }

/-- Two mappings to the same local field name fn. -/
def wAttrFn1 : IdPAttribute :=
  { saml_attribute := "first", mapped_name := "fn", is_nameid := false, always_update := false }

def wAttrFn2 : IdPAttribute :=
  { saml_attribute := "last", mapped_name := "fn", is_nameid := false, always_update := false }

/-- A mapping whose SAML attribute the witness assertion does not carry. -/
def wAttrMissing : IdPAttribute :=
  { saml_attribute := "phone", mapped_name := "phone", is_nameid := false, always_update := false }

/-- The witness assertion for C7: first and last are present, phone and upn
are absent. -/
def wSamlFull : Saml :=
  { get_attribute := fun n =>
      if n = "first" then some ["Ada"]
      else if n = "last" then some ["Lovelace"]
      else none,
    get_nameid := "lib-nameid" }

/-- Witness for C7: the empty-named mapping changes nothing, the later of
the two fn mappings wins, and an absent attribute is skipped. -/
theorem mapped_attributes_spec_witness :
    IdP.mapped_attributes { wIdp with attributes := [wAttrObs] } wSamlFull =
      IdP.mapped_attributes { wIdp with attributes := [] } wSamlFull ∧
    dictGet (IdP.mapped_attributes { wIdp with attributes := [wAttrFn1, wAttrFn2] }
      wSamlFull) "fn" = some ["Lovelace"] ∧
    IdP.mapped_attributes { wIdp with attributes := [wAttrFn1, wAttrMissing] } wSamlFull =
      IdP.mapped_attributes { wIdp with attributes := [wAttrFn1] } wSamlFull :=
  ⟨mapped_attributes_spec.1 wIdp wSamlFull [] [] wAttrObs rfl,
   mapped_attributes_spec.2.1 { wIdp with attributes := [wAttrFn1, wAttrFn2] } wSamlFull
     [wAttrFn1] [] wAttrFn2 ["Lovelace"] rfl (by simp [wAttrFn2]) rfl
     (fun b hb => absurd hb (List.not_mem_nil b)),
   mapped_attributes_spec.2.2 wIdp wSamlFull [wAttrFn1] [] wAttrMissing rfl⟩

/-- A second NameID-flagged mapping on a different SAML attribute. -/
def wNid2 : IdPAttribute :=
  { saml_attribute := "upn", mapped_name := "upn", is_nameid := true, always_update := false }

/-- Counterexample to C3 as stated: two creations, each respecting the
unique (idp, saml_attribute) database constraint, reach a state whose
mappings carry two NameID-source flags — nothing constrains is_nameid. -/
theorem nameid_uniqueness_counterexample :
    ReachableAttrs [wAttrEmail, wNid2] ∧ ¬ nameidCount [wAttrEmail, wNid2] ≤ 1 := by
  constructor
  · exact ReachableAttrs.add (t := [wAttrEmail, wNid2]) (a := wNid2)
      (ReachableAttrs.add (t := [wAttrEmail]) (a := wAttrEmail)
        ReachableAttrs.empty (by decide)) (by decide)
  · decide

/-- C3 amended: in every state reachable through the operations that create
or edit attribute mappings, the SAML attribute names are pairwise distinct
(the unique_together (idp, saml_attribute) constraint); the NameID-source
flag carries no such uniqueness. -/
theorem saml_attribute_unique_invariant (s : List IdPAttribute)
    (h : ReachableAttrs s) :
    (s.map (fun a => a.saml_attribute)).Nodup := by
  induction h with
  | empty => simp
  | @add s t a hs hadd ih =>
    rw [addAttribute] at hadd
    by_cases hc : s.any (fun b => b.saml_attribute == a.saml_attribute)
    · rw [if_pos hc] at hadd
      cases hadd
    · rw [if_neg hc] at hadd
      rw [← Option.some.inj hadd, List.map_append]
      refine List.Nodup.append ih (by simp) ?_
      intro x hx hxa
      obtain ⟨b, hb, hbx⟩ := List.mem_map.mp hx
      simp only [List.map_cons, List.map_nil, List.mem_singleton] at hxa
      apply hc
      refine List.any_eq_true.mpr ⟨b, hb, ?_⟩
      rw [beq_iff_eq, hbx, hxa]
  | @edit s t i a hs hedit ih =>
    rw [editAttribute] at hedit
    by_cases hi : i < s.length
    · rw [if_pos hi] at hedit
      by_cases hc : (s.eraseIdx i).any (fun b => b.saml_attribute == a.saml_attribute)
      · rw [if_pos hc] at hedit
        cases hedit
      · rw [if_neg hc] at hedit
        rw [← Option.some.inj hedit]
        have hset : s.set i a = s.take i ++ a :: s.drop (i + 1) := by
          rw [List.set_eq_take_append_cons_drop, if_pos hi]
        have herase : s.eraseIdx i = s.take i ++ s.drop (i + 1) :=
          List.eraseIdx_eq_take_drop_succ s i
        have hndstem : ((s.eraseIdx i).map (fun b => b.saml_attribute)).Nodup :=
          ih.sublist ((List.eraseIdx_sublist s i).map _)
        rw [hset, List.map_append, List.map_cons, List.nodup_middle, List.nodup_cons]
        constructor
        · intro hmem
          rw [← List.map_append, ← herase] at hmem
          obtain ⟨b, hb, hbx⟩ := List.mem_map.mp hmem
          apply hc
          refine List.any_eq_true.mpr ⟨b, hb, ?_⟩
          rw [beq_iff_eq, hbx]
        · rw [← List.map_append, ← herase]
          exact hndstem
    · rw [if_neg hi] at hedit
      cases hedit

/-- Witness for the amended C3 at a concrete reachable one-element state. -/
theorem saml_attribute_unique_invariant_witness :
    (([wAttrEmail].map (fun a => a.saml_attribute)).Nodup) :=
  saml_attribute_unique_invariant [wAttrEmail]
    (ReachableAttrs.add (t := [wAttrEmail]) (a := wAttrEmail)
      ReachableAttrs.empty (by decide))

/-- When the parse step fails, importParse leaves the stored row untouched. -/
theorem importParse_error (db mem : IdP) (now : Int)
    (parse : String → Except MetadataError (Dict JVal)) (e : MetadataError)
    (h : (importParse db mem now parse).2.2 = some e) :
    (importParse db mem now parse).1 = db := by
  rw [importParse] at h ⊢
  cases hp : parse mem.metadata_xml with
  | error e2 => simp [hp]
  | ok d =>
    rw [hp] at h
    simp at h

/-- C4: when import_metadata fails — the metadata fetch fails or the
metadata XML fails to parse — the operation aborts without saving, so the
stored metadata_xml, saml_settings and last_import are all retained
unchanged. -/
theorem import_metadata_aborts_without_save (db mem : IdP) (now : Int)
    (get_metadata : String → Bool → Except MetadataError String)
    (parse : String → Except MetadataError (Dict JVal)) (e : MetadataError)
    (herr : (IdP.import_metadata db mem now get_metadata parse).2.2 = some e) :
    (IdP.import_metadata db mem now get_metadata parse).1 = db ∧
    (IdP.import_metadata db mem now get_metadata parse).1.metadata_xml =
      db.metadata_xml ∧
    (IdP.import_metadata db mem now get_metadata parse).1.saml_settings =
      db.saml_settings ∧
    (IdP.import_metadata db mem now get_metadata parse).1.last_import =
      db.last_import := by
  have hdb : (IdP.import_metadata db mem now get_metadata parse).1 = db := by
    rw [IdP.import_metadata] at herr ⊢
    by_cases hu : mem.metadata_url ≠ ""
    · rw [if_pos hu] at herr ⊢
      cases hf : get_metadata mem.metadata_url mem.verify_metadata_cert with
      | error e2 => simp [hf]
      | ok xml =>
        rw [hf] at herr
        exact importParse_error _ _ _ _ e herr
    · rw [if_neg hu] at herr ⊢
      exact importParse_error _ _ _ _ e herr
  exact ⟨hdb, by rw [hdb], by rw [hdb], by rw [hdb]⟩

/-- A parse capability that always fails with MetadataParseError. -/
def wParseFail : String → Except MetadataError (Dict JVal) :=
  fun _ => Except.error MetadataError.parseError

/-- A fetch capability that always succeeds. -/
def wFetch : String → Bool → Except MetadataError String :=
  fun _ _ => Except.ok "<EntityDescriptor/>"

/-- Witness for C4: a failing parse aborts the import and the stored row is
returned unchanged. -/
theorem import_metadata_aborts_without_save_witness :
    (IdP.import_metadata wIdp wIdp 5 wFetch wParseFail).1 = wIdp :=
  (import_metadata_aborts_without_save wIdp wIdp 5 wFetch wParseFail
    MetadataError.parseError rfl).1

/-- C5: generate_certificate signs a certificate whose validity window is
exactly [now, now + 3650 days] and records certificate_expires at the same
bound; on failure of any step nothing is persisted (the stored row is
unchanged), and on success the stored row carries the new key, expiry and
certificate together — persistence happens only after the certificate is
fully built, so old and new state are never mixed. -/
theorem generate_certificate_window_and_atomicity (db mem : IdP) (now : Int)
    (netloc : String → String) (genKey : Except CertError RsaKey)
    (privPem : RsaKey → String) (sign : RsaKey → SignReq → Except CertError String) :
    ((mem.certSignReq netloc now).notBefore = now ∧
     (mem.certSignReq netloc now).notAfter = now + tenYears ∧
     tenYears = 3650 * 86400) ∧
    (∀ e, (IdP.generate_certificate db mem now netloc genKey privPem sign).2.2 = some e →
      (IdP.generate_certificate db mem now netloc genKey privPem sign).1 = db) ∧
    ((IdP.generate_certificate db mem now netloc genKey privPem sign).2.2 = none →
      ∃ key certPem, genKey = Except.ok key ∧
        sign key (mem.certSignReq netloc now) = Except.ok certPem ∧
        (IdP.generate_certificate db mem now netloc genKey privPem sign).1 =
          { mem with private_key := privPem key,
                     certificate_expires := some (now + tenYears),
                     x509_certificate := certPem }) := by
  refine ⟨⟨rfl, rfl, rfl⟩, ?_, ?_⟩
  · intro e herr
    cases genKey with
    | error e2 => rfl
    | ok key =>
      cases hs : sign key (mem.certSignReq netloc now) with
      | error e2 => simp [IdP.generate_certificate, hs]
      | ok certPem =>
        have hno : (IdP.generate_certificate db mem now netloc (Except.ok key)
            privPem sign).2.2 = none := by
          simp [IdP.generate_certificate, hs]
        rw [hno] at herr
        cases herr
  · intro hok
    cases genKey with
    | error e2 =>
      have hsome : (IdP.generate_certificate db mem now netloc (Except.error e2)
          privPem sign).2.2 = some e2 := by
        simp [IdP.generate_certificate]
      rw [hsome] at hok
      cases hok
    | ok key =>
      cases hs : sign key (mem.certSignReq netloc now) with
      | error e2 =>
        have hsome : (IdP.generate_certificate db mem now netloc (Except.ok key)
            privPem sign).2.2 = some e2 := by
          simp [IdP.generate_certificate, hs]
        rw [hsome] at hok
        cases hok
      | ok certPem =>
        refine ⟨key, certPem, rfl, hs, ?_⟩
        simp [IdP.generate_certificate, hs]

/-- The netloc of the witness base URL. -/
def wNetloc : String → String := fun _ => "sp.example.com"

/-- The PKCS8 PEM serialization capability in the witness. -/
def wPrivPem : RsaKey → String := fun _ => "PRIVPEM"

/-- The signing capability in the witness: always succeeds. -/
def wSign : RsaKey → SignReq → Except CertError String := fun _ _ => Except.ok "CERTPEM"

/-- Witness for C5: a successful generation persists key, expiry and
certificate together, and a failing key generation persists nothing. -/
theorem generate_certificate_window_and_atomicity_witness :
    (IdP.generate_certificate wIdp wIdp 1000 wNetloc (Except.ok ⟨0⟩) wPrivPem wSign).1 =
      { wIdp with private_key := "PRIVPEM",
                  certificate_expires := some (1000 + tenYears),
                  x509_certificate := "CERTPEM" } ∧
    (IdP.generate_certificate wIdp wIdp 1000 wNetloc
      (Except.error CertError.keyGenerationError) wPrivPem wSign).1 = wIdp := by
  constructor
  · obtain ⟨key, certPem, hk, hs, hres⟩ :=
      (generate_certificate_window_and_atomicity wIdp wIdp 1000 wNetloc
        (Except.ok ⟨0⟩) wPrivPem wSign).2.2 rfl
    obtain rfl : key = RsaKey.mk 0 := (Except.ok.inj hk).symm
    obtain rfl : certPem = "CERTPEM" := (Except.ok.inj hs).symm
    exact hres
  · exact (generate_certificate_window_and_atomicity wIdp wIdp 1000 wNetloc
      (Except.error CertError.keyGenerationError) wPrivPem wSign).2.1
      CertError.keyGenerationError rfl
